import Mathlib

/-!
Verification of the happy permission-decision coordinator and the ToolHeader
presentation component.

The coordinator (`PermissionHandler` in the repository) is exercised by its
vitest specification; the implementation file itself is not part of the
sources available here, so its data model and operations are modelled from
the specification (sections 3-5 of spec.md) and checked against the
behaviours the test file pins down.  The `ToolHeader` component is embedded
directly from its source file
(`packages/happy-app/sources/components/tools/ToolHeader.tsx`).
-/

/-- Modelled from the spec: the four coarse authorization modes
(spec.md section 3, "AuthorizationMode"). -/
inductive AuthorizationMode where
  | defaultMode
  | acceptEdits
  | bypassPermissions
  | plan
deriving DecidableEq, Repr

/-- Behavior component of a decision: allow or deny. -/
inductive Behavior where
  | allow
  | deny
deriving DecidableEq, Repr

/-- Modelled from the spec: a Decision is
`{behavior: allow | deny, updatedInput?}` (spec.md section 3). -/
structure Decision where
  behavior : Behavior
  updatedInput : Option String
deriving DecidableEq, Repr

/-- The immediate allow decision returned on auto-approval. -/
def allowDecision : Decision := ⟨Behavior.allow, none⟩

/-- Modelled from the spec: the deny-equivalent decision written by the
cancellation path (spec.md section 4.3, `cancel`). -/
def cancelDecision : Decision := ⟨Behavior.deny, none⟩

/-- Modelled from the spec: a tool-invocation record `{id, name, input}`
extracted from an assistant message's tool_use content block
(spec.md section 3).  The input is kept in serialized form, so equality of
inputs is structural (by value), exactly as section 4.2 requires records to
be keyed by `(name, serialized input)`. -/
structure ToolInvocationRecord where
  id : String
  name : String
  input : String
deriving DecidableEq, Repr

/-- A content block of an assistant message: either a tool_use announcement
or other content the index ignores. -/
inductive ContentBlock where
  | toolUse (id : String) (name : String) (input : String)
  | other (text : String)
deriving DecidableEq, Repr

/-- An assistant message: a list of content blocks. -/
structure Message where
  content : List ContentBlock
deriving DecidableEq, Repr

/-- The tool_use blocks of a message, in order, as invocation records. -/
def Message.toolUses (m : Message) : List ToolInvocationRecord :=
  m.content.foldr
    (fun b acc =>
      match b with
      | ContentBlock.toolUse i n inp => ⟨i, n, inp⟩ :: acc
      | ContentBlock.other _ => acc)
    []

namespace ToolInvocationIndex

/-- Modelled from the spec: the ToolInvocationIndex record store, the
unmatched records in arrival order, oldest first (spec.md section 4.2:
"Multiple invocations with identical name+input are recorded in arrival
order (a queue per key)"). -/
abbrev Store := List ToolInvocationRecord

/-- Modelled from the spec: `ingest(message)` records each tool_use
announcement of the message, in order, at the back of the store
(spec.md section 4.2). -/
def ingest (s : Store) (m : Message) : Store :=
  s ++ m.toolUses

/-- Modelled from the spec: `resolve(name, input)` pops the oldest unmatched
record whose key equals `(name, serialized input)`; `none` models the
`UnresolvedInvocation` failure (spec.md section 4.2).  Returns the matched
identifier together with the store with that one record consumed. -/
def resolve (s : Store) (name input : String) :
    Option (String × Store) :=
  match s with
  | [] => none
  | r :: rest =>
    if r.name = name ∧ r.input = input then
      some (r.id, rest)
    else
      match resolve rest name input with
      | none => none
      | some (i, rest') => some (i, r :: rest')

end ToolInvocationIndex

/-- Modelled from the spec: the errors of the PendingRequestRegistry
(spec.md sections 4.3 and 7). -/
inductive RegistryError where
  | duplicateRequest
  | unknownRequest
deriving DecidableEq, Repr

/-- Modelled from the spec: the PendingRequestRegistry.  `pending` holds the
identifiers with an in-flight, not-yet-completed request; `outcomes` is the
record of settled outcomes, in settlement order (each completion appends
exactly one entry). -/
structure Registry where
  pending : List String
  outcomes : List (String × Decision)
deriving DecidableEq, Repr

namespace Registry

/-- The empty registry. -/
def empty : Registry := ⟨[], []⟩

/-- Modelled from the spec: `create(id)` registers a pending request, and
fails with `DuplicateRequest` when an unresolved request already exists for
`id` (spec.md section 4.3).  On failure the registry is unchanged. -/
def create (reg : Registry) (id : String) :
    Option RegistryError × Registry :=
  if id ∈ reg.pending then
    (some RegistryError.duplicateRequest, reg)
  else
    (none, ⟨reg.pending ++ [id], reg.outcomes⟩)

/-- Modelled from the spec: `resolve(id, decision)` completes the associated
outcome exactly once and removes the pending entry; it fails with
`UnknownRequest`, leaving the registry unchanged, when `id` has no pending
entry (spec.md section 4.3). -/
def resolve (reg : Registry) (id : String) (d : Decision) :
    Option RegistryError × Registry :=
  if id ∈ reg.pending then
    (none, ⟨reg.pending.erase id, reg.outcomes ++ [(id, d)]⟩)
  else
    (some RegistryError.unknownRequest, reg)

/-- Modelled from the spec: `cancel(id)` completes the outcome with the
cancellation decision (a deny-equivalent) and removes the entry; it always
succeeds and is idempotent, a no-op when `id` is not pending
(spec.md sections 4.3 and 5). -/
def cancel (reg : Registry) (id : String) : Registry :=
  if id ∈ reg.pending then
    ⟨reg.pending.erase id, reg.outcomes ++ [(id, cancelDecision)]⟩
  else
    reg

/-- The decisions settled for an identifier, in settlement order. -/
def outcomesFor (reg : Registry) (id : String) : List Decision :=
  (reg.outcomes.filter (fun p => p.1 == id)).map Prod.snd

/-- The settled outcome recorded for an identifier: the first entry for it
in settlement order. -/
def outcomeOf (reg : Registry) (id : String) : Option Decision :=
  (reg.outcomesFor id).head?

/-- How many settled outcomes the registry records for an identifier. -/
def outcomeCount (reg : Registry) (id : String) : Nat :=
  (reg.outcomesFor id).length

end Registry

/-- Modelled from the spec: `effectiveMode` returns the override's
permission mode when one is supplied, else the tracked mode
(spec.md section 4.1). -/
def effectiveMode (tracked : AuthorizationMode)
    (override : Option AuthorizationMode) : AuthorizationMode :=
  match override with
  | some m => m
  | none => tracked

/-- Modelled from the spec: the state of the PermissionCoordinator: the
tracked authorization mode, the tool-invocation index store, and the
pending-request registry (spec.md section 2). -/
structure Coordinator where
  mode : AuthorizationMode
  index : ToolInvocationIndex.Store
  registry : Registry

/-- The possible outcomes of one `decide` call (spec.md section 4.4's per
call state machine): an immediate decision, a pending (awaiting-human)
outcome referencing the resolved identifier, the recoverable
`UnresolvedInvocation` failure, or the `DuplicateRequest` failure. -/
inductive DecideOutcome where
  | immediate (d : Decision)
  | awaiting (id : String)
  | unresolvedInvocation
  | duplicateRequest
deriving DecidableEq, Repr

/-- Whether a decide outcome is an immediate decision (auto-allow or
auto-deny), as opposed to a pending outcome or a failure. -/
def DecideOutcome.isImmediate : DecideOutcome → Bool
  | DecideOutcome.immediate _ => true
  | _ => false

namespace Coordinator

/-- A freshly constructed coordinator: tracked mode `default`, nothing
ingested, no pending requests. -/
def fresh : Coordinator :=
  ⟨AuthorizationMode.defaultMode, [], Registry.empty⟩

/-- Modelled from the spec: `setMode(mode)` updates the tracked mode
(spec.md section 4.1). -/
def setMode (c : Coordinator) (m : AuthorizationMode) : Coordinator :=
  ⟨m, c.index, c.registry⟩

/-- Modelled from the spec: `reset()` sets the tracked mode back to
`default` and touches nothing else (spec.md section 4.1: it does not
implicitly cancel pending requests). -/
def reset (c : Coordinator) : Coordinator :=
  ⟨AuthorizationMode.defaultMode, c.index, c.registry⟩

/-- Modelled from the spec: `ingestMessage` feeds one assistant message to
the tool-invocation index (spec.md section 6). -/
def ingestMessage (c : Coordinator) (m : Message) : Coordinator :=
  ⟨c.mode, ToolInvocationIndex.ingest c.index m, c.registry⟩

/-- Ingest a list of messages in order. -/
def ingestAll (c : Coordinator) (ms : List Message) : Coordinator :=
  ms.foldl ingestMessage c

/-- Modelled from the spec: `decide(toolName, input, callOverride)`
(spec.md section 4.4).  `isEdit` is the externally supplied edit-class
classifier (section 6).  Steps: compute the effective mode; on
`bypassPermissions` allow immediately; on `acceptEdits` for an edit-class
tool allow immediately; otherwise resolve an identifier via the index
(failure is `UnresolvedInvocation`), register a pending request (failure is
`DuplicateRequest`), and return the pending outcome.  State is unchanged on
any failure and on immediate decisions. -/
def decide (isEdit : String → Bool) (c : Coordinator)
    (toolName input : String) (override : Option AuthorizationMode) :
    DecideOutcome × Coordinator :=
  let effective := effectiveMode c.mode override
  if effective = AuthorizationMode.bypassPermissions then
    (DecideOutcome.immediate allowDecision, c)
  else if effective = AuthorizationMode.acceptEdits ∧ isEdit toolName then
    (DecideOutcome.immediate allowDecision, c)
  else
    match ToolInvocationIndex.resolve c.index toolName input with
    | none => (DecideOutcome.unresolvedInvocation, c)
    | some (id, idx') =>
      match Registry.create c.registry id with
      | (some _, _) => (DecideOutcome.duplicateRequest, c)
      | (none, reg') => (DecideOutcome.awaiting id, ⟨c.mode, idx', reg'⟩)

end Coordinator

/-! ## ToolHeader (embedded from
`packages/happy-app/sources/components/tools/ToolHeader.tsx`) -/

/-- The tool call handed to `ToolHeader` (`tool: ToolCall`); the component
reads its `name` and passes the whole value to the known tool's
functions. -/
structure ToolCall where
  name : String
  input : String
deriving DecidableEq, Repr

/-- A rendered icon element.  `ionicon n sz c` stands for
`<Ionicons name={n} size={sz} color={c} />`; `custom` stands for any other
element a known tool's `icon` function may return. -/
inductive Icon where
  | ionicon (name : String) (size : Nat) (color : String)
  | custom (tag : String)
deriving DecidableEq, Repr

/-- The `title` field of a known tool: in the source it is optional and
either a string or a function of `{tool, metadata}`.  A JavaScript string
is falsy exactly when empty; a function is always truthy
(`if (knownTool?.title)` in the source). -/
inductive TitleSpec where
  | str (s : String)
  | fn (f : ToolCall → String)

/-- One entry of the `knownTools` catalog, restricted to the four fields
`ToolHeader` reads.  Functions returning a non-string (so failing the
`typeof === 'string'` guard) are modelled by an `Option.none` result. -/
structure KnownTool where
  title : Option TitleSpec
  icon : Option (Nat → String → Icon)
  extractStatus : Option (ToolCall → Option String)
  extractSubtitle : Option (ToolCall → Option String)

/-- The variable part of the element tree `ToolHeader` returns: the icon,
the title text, and the optional subtitle text (styles are constant). -/
structure RenderedHeader where
  icon : Icon
  title : String
  subtitle : Option String
deriving DecidableEq, Repr

/-- Truthiness of `knownTool?.title` in the source: absent or the empty
string is falsy, a non-empty string or a function is truthy. -/
def titleTruthy : Option TitleSpec → Bool
  | none => false
  | some (TitleSpec.str s) => !(s = "")
  | some (TitleSpec.fn _) => true

/-- The `toolTitle` computation of `ToolHeader` (source lines 25-33):
start from `tool.name`; when `knownTool?.title` is truthy, replace it by
the string, or by the function applied to the tool. -/
def computeTitle (knownTool : Option KnownTool) (tool : ToolCall) :
    String :=
  match knownTool with
  | none => tool.name
  | some k =>
    if titleTruthy k.title then
      match k.title with
      | some (TitleSpec.str s) => s
      | some (TitleSpec.fn f) => f tool
      | none => tool.name
    else tool.name

/-- The `icon` computation of `ToolHeader` (source lines 35-37): the known
tool's `icon` function at size 18 and the header tint when it is a
function, else the default construct-outline Ionicons element. -/
def computeIcon (knownTool : Option KnownTool) (tint : String) : Icon :=
  match knownTool with
  | some k =>
    match k.icon with
    | some f => f 18 tint
    | none => Icon.ionicon "construct-outline" 18 tint
  | none => Icon.ionicon "construct-outline" 18 tint

/-- The `status` computation of `ToolHeader` (source lines 16-23): the
known tool's `extractStatus` result when it is a function returning a
non-empty string, else `null`.  The returned element tree never reads
it. -/
def computeStatus (knownTool : Option KnownTool) (tool : ToolCall) :
    Option String :=
  match knownTool with
  | some k =>
    match k.extractStatus with
    | some f =>
      match f tool with
      | some s => if s = "" then none else some s
      | none => none
    | none => none
  | none => none

/-- The `subtitle` computation of `ToolHeader` (source lines 39-46): the
known tool's `extractSubtitle` result when it is a function returning a
non-empty string, else `null`. -/
def computeSubtitle (knownTool : Option KnownTool) (tool : ToolCall) :
    Option String :=
  match knownTool with
  | some k =>
    match k.extractSubtitle with
    | some f =>
      match f tool with
      | some s => if s = "" then none else some s
      | none => none
    | none => none
  | none => none

/-- `ToolHeader` (source lines 12-61): look the tool's name up in
`knownTools`, compute status, title, icon and subtitle as the source does,
and return the element tree, whose variable content is the icon, the title
and the conditional subtitle.  The computed `status` local is bound and
then never used in the returned tree, exactly as in the source. -/
def ToolHeader (knownTools : String → Option KnownTool) (tint : String)
    (tool : ToolCall) : RenderedHeader :=
  let knownTool := knownTools tool.name
  let _status := computeStatus knownTool tool
  let toolTitle := computeTitle knownTool tool
  let icon := computeIcon knownTool tint
  let subtitle := computeSubtitle knownTool tool
  ⟨icon, toolTitle, subtitle⟩

/-- A known tool with its `extractStatus` field removed; two catalog entries
agreeing under this map differ at most in their status extraction. -/
def KnownTool.eraseStatus (k : KnownTool) : KnownTool :=
  ⟨k.title, k.icon, none, k.extractSubtitle⟩

/-- A concrete edit-class classifier, standing for the externally supplied
classification of write/modify-file tools (spec.md section 6; the test file
treats Edit and Write as edit-class and Bash as not). -/
def editClassifier : String → Bool := fun n =>
  n = "Edit" || n = "Write" || n = "MultiEdit" || n = "NotebookEdit"

/-- The test file's assistant message announcing a Bash invocation with
identifier test-tool-1. -/
def bashMessage : Message :=
  ⟨[ContentBlock.toolUse "test-tool-1" "Bash" "command=ls"]⟩

/-- A coordinator that has ingested exactly `bashMessage`. -/
def bashIngested : Coordinator :=
  Coordinator.ingestMessage Coordinator.fresh bashMessage

/-- A registry with a single pending request, identifier t1. -/
def regT1 : Registry := ⟨["t1"], []⟩

/-- A known tool that supplies the empty string as its title; JavaScript
treats it as falsy. -/
def emptyTitleTool : KnownTool :=
  ⟨some (TitleSpec.str ""), none, none, none⟩

/-- A catalog whose only known tool is Bash, with an empty-string title. -/
def emptyTitleCatalog : String → Option KnownTool := fun n =>
  if n = "Bash" then some emptyTitleTool else none

/-- A catalog entry whose `extractStatus` reports a running status. -/
def statusCatalogA : String → Option KnownTool := fun _ =>
  some ⟨some (TitleSpec.str "Terminal"), none,
    some (fun _ => some "running"), none⟩

/-- The same catalog entry as `statusCatalogA` with `extractStatus`
absent. -/
def statusCatalogB : String → Option KnownTool := fun _ =>
  some ⟨some (TitleSpec.str "Terminal"), none, none, none⟩

/-! ## Helper lemmas -/

/-- Ingesting messages never changes the tracked mode. -/
theorem ingestAll_mode (ms : List Message) (c : Coordinator) :
    (Coordinator.ingestAll c ms).mode = c.mode := by
  induction ms generalizing c with
  | nil => rfl
  | cons m rest ih =>
    show (Coordinator.ingestAll (Coordinator.ingestMessage c m) rest).mode = c.mode
    rw [ih]
    rfl

/-- When the effective mode is neither `bypassPermissions` nor
`acceptEdits`-with-an-edit-tool, `decide` takes the resolution path of
section 4.4 steps 4-5. -/
theorem decide_resolution_path (isEdit : String → Bool) (c : Coordinator)
    (toolName input : String) (override : Option AuthorizationMode)
    (h1 : ¬ effectiveMode c.mode override = AuthorizationMode.bypassPermissions)
    (h2 : ¬ (effectiveMode c.mode override = AuthorizationMode.acceptEdits ∧
          isEdit toolName = true)) :
    Coordinator.decide isEdit c toolName input override =
      match ToolInvocationIndex.resolve c.index toolName input with
      | none => (DecideOutcome.unresolvedInvocation, c)
      | some (id, idx') =>
        match Registry.create c.registry id with
        | (some _, _) => (DecideOutcome.duplicateRequest, c)
        | (none, reg') => (DecideOutcome.awaiting id, ⟨c.mode, idx', reg'⟩) := by
  unfold Coordinator.decide
  rw [if_neg h1, if_neg h2]

/-- Under an effective mode of `default`, the outcome of `decide` is never
an immediate decision. -/
theorem decide_default_not_immediate (isEdit : String → Bool)
    (c : Coordinator) (toolName input : String)
    (override : Option AuthorizationMode)
    (h : effectiveMode c.mode override = AuthorizationMode.defaultMode) :
    (Coordinator.decide isEdit c toolName input override).1.isImmediate
      = false := by
  rw [decide_resolution_path isEdit c toolName input override
      (by rw [h]; intro hx; cases hx)
      (by rw [h]; intro hx; cases hx.1)]
  cases hres : ToolInvocationIndex.resolve c.index toolName input with
  | none => rfl
  | some p =>
    obtain ⟨id, idx'⟩ := p
    dsimp only
    cases hc : Registry.create c.registry id with
    | mk err reg' => cases err <;> rfl

/-- `resolve` pops a matching record at the head of the store. -/
theorem resolve_cons_match (r : ToolInvocationRecord)
    (rest : ToolInvocationIndex.Store) (name input : String)
    (h : r.name = name ∧ r.input = input) :
    ToolInvocationIndex.resolve (r :: rest) name input
      = some (r.id, rest) := by
  unfold ToolInvocationIndex.resolve
  rw [if_pos h]

/-- `resolve` passes over a non-matching record at the head of the store,
keeping it in place. -/
theorem resolve_cons_no_match (r : ToolInvocationRecord)
    (rest : ToolInvocationIndex.Store) (name input : String)
    (h : ¬(r.name = name ∧ r.input = input)) :
    ToolInvocationIndex.resolve (r :: rest) name input =
      match ToolInvocationIndex.resolve rest name input with
      | none => none
      | some (i, rest') => some (i, r :: rest') := by
  show (if r.name = name ∧ r.input = input then some (r.id, rest)
      else
        match ToolInvocationIndex.resolve rest name input with
        | none => none
        | some (i, rest') => some (i, r :: rest')) = _
  rw [if_neg h]

/-- `resolve` skips over a prefix with no matching record, consuming
nothing there. -/
theorem resolve_append_skip (s t : ToolInvocationIndex.Store)
    (name input : String)
    (h : ∀ r ∈ s, ¬(r.name = name ∧ r.input = input)) :
    ToolInvocationIndex.resolve (s ++ t) name input =
      match ToolInvocationIndex.resolve t name input with
      | none => none
      | some (i, t') => some (i, s ++ t') := by
  induction s with
  | nil =>
    cases hres : ToolInvocationIndex.resolve t name input with
    | none => simpa using hres
    | some p =>
      obtain ⟨i, t'⟩ := p
      simpa using hres
  | cons r s ih =>
    have hr : ¬(r.name = name ∧ r.input = input) :=
      h r (List.mem_cons_self r s)
    have htail : ∀ x ∈ s, ¬(x.name = name ∧ x.input = input) :=
      fun x hx => h x (List.mem_cons_of_mem r hx)
    rw [List.cons_append, resolve_cons_no_match r (s ++ t) name input hr,
      ih htail]
    cases hres : ToolInvocationIndex.resolve t name input with
    | none => rfl
    | some p =>
      obtain ⟨i, t'⟩ := p
      simp

/-- Settling a decision appends it to the outcomes recorded for its own
identifier. -/
theorem outcomesFor_settle (pend : List String)
    (outs : List (String × Decision)) (id : String) (d : Decision) :
    Registry.outcomesFor ⟨pend, outs ++ [(id, d)]⟩ id
      = Registry.outcomesFor ⟨pend, outs⟩ id ++ [d] := by
  unfold Registry.outcomesFor
  rw [List.filter_append]
  simp

/-- Settled outcomes are untouched by `cancel`. -/
theorem cancel_not_pending (reg : Registry) (id : String)
    (h : ¬ id ∈ reg.pending) :
    Registry.cancel reg id = reg := by
  unfold Registry.cancel
  rw [if_neg h]

/-- A successful `resolve` on a pending identifier: the entry leaves
`pending` and the decision is appended to the outcomes. -/
theorem resolve_pending (reg : Registry) (id : String) (d : Decision)
    (h : id ∈ reg.pending) :
    Registry.resolve reg id d =
      (none, ⟨reg.pending.erase id,
        reg.outcomes ++ [(id, d)]⟩) := by
  unfold Registry.resolve
  rw [if_pos h]

/-- `resolve` on a non-pending identifier fails with `UnknownRequest` and
leaves the registry unchanged. -/
theorem resolve_not_pending (reg : Registry) (id : String) (d : Decision)
    (h : ¬ id ∈ reg.pending) :
    Registry.resolve reg id d
      = (some RegistryError.unknownRequest, reg) := by
  unfold Registry.resolve
  rw [if_neg h]

/-- `cancel` on a pending identifier removes the entry and settles the
cancellation decision. -/
theorem cancel_pending (reg : Registry) (id : String)
    (h : id ∈ reg.pending) :
    Registry.cancel reg id =
      ⟨reg.pending.erase id, reg.outcomes ++ [(id, cancelDecision)]⟩ := by
  unfold Registry.cancel
  rw [if_pos h]

/-- With no duplicate pending entries, an identifier is no longer pending
once erased. -/
theorem not_mem_erase_self (l : List String) (id : String)
    (h : l.Nodup) : ¬ id ∈ l.erase id := by
  intro hx
  exact (List.Nodup.mem_erase_iff h).1 hx |>.1 rfl

/-- `reset` after `setMode` restores a coordinator whose tracked mode was
`default`, exactly as it stood. -/
theorem reset_setMode (c : Coordinator) (m : AuthorizationMode)
    (h : c.mode = AuthorizationMode.defaultMode) :
    (Coordinator.setMode c m).reset = c := by
  cases c with
  | mk mo idx reg =>
    cases h
    rfl

/-! ## The claims -/

/-- Claim C1: a `decide` call whose per-call override carries
`bypassPermissions` returns `{behavior: allow}` immediately, for every
coordinator state — whatever the tracked mode, whatever has been ingested
(including nothing at all) — and the call touches no state, so no
invocation-identifier resolution is attempted. -/
theorem decide_bypass_override_allows (isEdit : String → Bool)
    (c : Coordinator) (toolName input : String) :
    Coordinator.decide isEdit c toolName input
        (some AuthorizationMode.bypassPermissions)
      = (DecideOutcome.immediate allowDecision, c) := rfl

/-- Claim C2: a `decide` call whose per-call override carries `acceptEdits`
and whose tool is edit-class returns `{behavior: allow}` immediately, for
every coordinator state, without identifier resolution or prior
ingestion. -/
theorem decide_acceptEdits_edit_allows (isEdit : String → Bool)
    (c : Coordinator) (toolName input : String)
    (h : isEdit toolName = true) :
    Coordinator.decide isEdit c toolName input
        (some AuthorizationMode.acceptEdits)
      = (DecideOutcome.immediate allowDecision, c) := by
  unfold Coordinator.decide
  rw [if_neg (by simp [effectiveMode]), if_pos ⟨rfl, h⟩]

/-- Claim C2's witness: `Edit` is edit-class, and the fresh coordinator —
nothing ingested — immediately allows it under the `acceptEdits`
override. -/
theorem decide_acceptEdits_edit_allows_witness :
    editClassifier "Edit" = true ∧
    Coordinator.decide editClassifier Coordinator.fresh "Edit"
        "file_path=/test/file.ts" (some AuthorizationMode.acceptEdits)
      = (DecideOutcome.immediate allowDecision, Coordinator.fresh) :=
  ⟨by decide,
    decide_acceptEdits_edit_allows editClassifier Coordinator.fresh "Edit"
      "file_path=/test/file.ts" (by decide)⟩

/-- Claim C3: under an effective mode of `default`, `decide` never returns
an immediate decision, and once the identifier resolves (and registration
succeeds) it returns the pending `awaiting` outcome for that identifier,
with the request registered and the matched record consumed. -/
theorem decide_default_pending (isEdit : String → Bool) (c : Coordinator)
    (toolName input : String) (override : Option AuthorizationMode)
    (h : effectiveMode c.mode override = AuthorizationMode.defaultMode) :
    (Coordinator.decide isEdit c toolName input override).1.isImmediate
      = false ∧
    ∀ id idx',
      ToolInvocationIndex.resolve c.index toolName input = some (id, idx') →
      ¬ id ∈ c.registry.pending →
      Coordinator.decide isEdit c toolName input override
        = (DecideOutcome.awaiting id,
            ⟨c.mode, idx',
              ⟨c.registry.pending ++ [id], c.registry.outcomes⟩⟩) := by
  constructor
  · exact decide_default_not_immediate isEdit c toolName input override h
  · intro id idx' hres hnp
    rw [decide_resolution_path isEdit c toolName input override
        (by rw [h]; simp) (by rw [h]; rintro ⟨hx, _⟩; cases hx)]
    rw [hres]
    dsimp only
    unfold Registry.create
    rw [if_neg hnp]

/-- Claim C3's witness: with the Bash announcement ingested and a
`default` override, the decision is the pending outcome for
test-tool-1. -/
theorem decide_default_pending_witness :
    Coordinator.decide editClassifier bashIngested "Bash" "command=ls"
        (some AuthorizationMode.defaultMode)
      = (DecideOutcome.awaiting "test-tool-1",
          ⟨AuthorizationMode.defaultMode, [], ⟨["test-tool-1"], []⟩⟩) :=
  (decide_default_pending editClassifier bashIngested "Bash" "command=ls"
      (some AuthorizationMode.defaultMode) rfl).2
    "test-tool-1" [] (by decide) (by decide)

/-- Claim C6: `setMode bypassPermissions` followed by `reset` leaves a
coordinator (built from fresh by any ingestions) exactly as it stood, a
`default`-override `decide` on it coincides with the same call on the
coordinator never set to `bypassPermissions`, and that call's outcome is
never an immediate decision. -/
theorem reset_restores_default (isEdit : String → Bool)
    (ms : List Message) (toolName input : String) :
    ((Coordinator.ingestAll Coordinator.fresh ms).setMode
        AuthorizationMode.bypassPermissions).reset
      = Coordinator.ingestAll Coordinator.fresh ms ∧
    Coordinator.decide isEdit
        (((Coordinator.ingestAll Coordinator.fresh ms).setMode
            AuthorizationMode.bypassPermissions).reset)
        toolName input (some AuthorizationMode.defaultMode)
      = Coordinator.decide isEdit (Coordinator.ingestAll Coordinator.fresh ms)
          toolName input (some AuthorizationMode.defaultMode) ∧
    (Coordinator.decide isEdit
        (((Coordinator.ingestAll Coordinator.fresh ms).setMode
            AuthorizationMode.bypassPermissions).reset)
        toolName input
        (some AuthorizationMode.defaultMode)).1.isImmediate = false := by
  have heq : ((Coordinator.ingestAll Coordinator.fresh ms).setMode
      AuthorizationMode.bypassPermissions).reset
      = Coordinator.ingestAll Coordinator.fresh ms :=
    reset_setMode (Coordinator.ingestAll Coordinator.fresh ms)
      AuthorizationMode.bypassPermissions
      (ingestAll_mode ms Coordinator.fresh)
  refine ⟨heq, by rw [heq], ?_⟩
  rw [heq]
  exact decide_default_not_immediate isEdit
    (Coordinator.ingestAll Coordinator.fresh ms) toolName input
    (some AuthorizationMode.defaultMode) rfl

/-- Claim C7: when the effective mode requires identifier resolution
(`default`, `plan`, or `acceptEdits` on a non-edit tool) and no matching
announcement has been ingested, `decide` fails with the distinct
recoverable `UnresolvedInvocation` outcome — no silent allow or deny — and
leaves the coordinator unchanged. -/
theorem decide_unresolved_propagates (isEdit : String → Bool)
    (c : Coordinator) (toolName input : String)
    (override : Option AuthorizationMode)
    (h1 : effectiveMode c.mode override = AuthorizationMode.defaultMode ∨
      effectiveMode c.mode override = AuthorizationMode.plan ∨
      (effectiveMode c.mode override = AuthorizationMode.acceptEdits ∧
        isEdit toolName = false))
    (h2 : ToolInvocationIndex.resolve c.index toolName input = none) :
    Coordinator.decide isEdit c toolName input override
      = (DecideOutcome.unresolvedInvocation, c) := by
  have hb : ¬ effectiveMode c.mode override
      = AuthorizationMode.bypassPermissions := by
    rcases h1 with h | h | ⟨h, _⟩ <;> rw [h] <;> simp
  have ha : ¬ (effectiveMode c.mode override
      = AuthorizationMode.acceptEdits ∧ isEdit toolName = true) := by
    rintro ⟨hm, ht⟩
    rcases h1 with h | h | ⟨h, he⟩
    · rw [h] at hm; cases hm
    · rw [h] at hm; cases hm
    · rw [he] at ht; cases ht
  rw [decide_resolution_path isEdit c toolName input override hb ha, h2]

/-- Claim C7's witness: `Bash` is not edit-class, and on the fresh
coordinator — no ingestion — an `acceptEdits`-override call for it yields
`UnresolvedInvocation`, not an allow. -/
theorem decide_unresolved_propagates_witness :
    editClassifier "Bash" = false ∧
    Coordinator.decide editClassifier Coordinator.fresh "Bash" "command=ls"
        (some AuthorizationMode.acceptEdits)
      = (DecideOutcome.unresolvedInvocation, Coordinator.fresh) :=
  ⟨by decide,
    decide_unresolved_propagates editClassifier Coordinator.fresh "Bash"
      "command=ls" (some AuthorizationMode.acceptEdits)
      (Or.inr (Or.inr ⟨rfl, by decide⟩)) rfl⟩

/-- Claim C4: on a registry without duplicate pending entries, the first
`resolve` for a pending identifier succeeds and settles its outcome; a
second `resolve` for the same identifier fails with `UnknownRequest`,
changes nothing, and the settled outcome stays what the first call
wrote. -/
theorem registry_resolve_idempotent (reg : Registry) (id : String)
    (d d' : Decision) (hnd : reg.pending.Nodup) (hp : id ∈ reg.pending)
    (ho : Registry.outcomesFor reg id = []) :
    (Registry.resolve reg id d).1 = none ∧
    Registry.outcomeOf (Registry.resolve reg id d).2 id = some d ∧
    Registry.resolve (Registry.resolve reg id d).2 id d'
      = (some RegistryError.unknownRequest, (Registry.resolve reg id d).2) ∧
    Registry.outcomeOf
        (Registry.resolve (Registry.resolve reg id d).2 id d').2 id
      = some d := by
  have h1 := resolve_pending reg id d hp
  have hne : ¬ id ∈ reg.pending.erase id :=
    not_mem_erase_self reg.pending id hnd
  have hout : Registry.outcomeOf
      (⟨reg.pending.erase id, reg.outcomes ++ [(id, d)]⟩ : Registry) id
      = some d := by
    unfold Registry.outcomeOf
    rw [outcomesFor_settle]
    have hz : Registry.outcomesFor
        ⟨reg.pending.erase id, reg.outcomes⟩ id = [] := ho
    rw [hz]
    rfl
  have h2 : Registry.resolve
      (⟨reg.pending.erase id, reg.outcomes ++ [(id, d)]⟩ : Registry) id d'
      = (some RegistryError.unknownRequest,
          ⟨reg.pending.erase id, reg.outcomes ++ [(id, d)]⟩) :=
    resolve_not_pending _ id d' hne
  refine ⟨?_, ?_, ?_, ?_⟩
  · rw [h1]
  · rw [h1]
    exact hout
  · rw [h1]
    exact h2
  · rw [h1]
    show Registry.outcomeOf
      (Registry.resolve
        (⟨reg.pending.erase id, reg.outcomes ++ [(id, d)]⟩ : Registry)
        id d').2 id = some d
    rw [h2]
    exact hout

/-- Claim C4's witness: resolving t1 twice on a one-entry registry — the
first call settles allow, the second fails with `UnknownRequest` and the
settled outcome stays allow. -/
theorem registry_resolve_idempotent_witness :
    (Registry.resolve regT1 "t1" allowDecision).1 = none ∧
    Registry.outcomeOf (Registry.resolve regT1 "t1" allowDecision).2 "t1"
      = some allowDecision ∧
    Registry.resolve (Registry.resolve regT1 "t1" allowDecision).2 "t1"
        cancelDecision
      = (some RegistryError.unknownRequest,
          (Registry.resolve regT1 "t1" allowDecision).2) ∧
    Registry.outcomeOf
        (Registry.resolve (Registry.resolve regT1 "t1" allowDecision).2
          "t1" cancelDecision).2 "t1"
      = some allowDecision :=
  registry_resolve_idempotent regT1 "t1" allowDecision cancelDecision
    (by decide) (by decide) (by decide)

/-- Claim C5: for a pending identifier not yet settled, whichever of the
external decision and the cancellation completes first wins: in either
interleaving of the two atomic completions exactly one outcome is settled
— never both, never neither — it is the first writer's, and the late
writer's `resolve` is refused with `UnknownRequest`. -/
theorem registry_race_exactly_once (reg : Registry) (id : String)
    (d : Decision) (hnd : reg.pending.Nodup) (hp : id ∈ reg.pending)
    (ho : Registry.outcomesFor reg id = []) :
    Registry.outcomesFor
        (Registry.cancel (Registry.resolve reg id d).2 id) id = [d] ∧
    Registry.outcomeCount
        (Registry.cancel (Registry.resolve reg id d).2 id) id = 1 ∧
    Registry.outcomesFor
        (Registry.resolve (Registry.cancel reg id) id d).2 id
      = [cancelDecision] ∧
    Registry.outcomeCount
        (Registry.resolve (Registry.cancel reg id) id d).2 id = 1 ∧
    (Registry.resolve (Registry.cancel reg id) id d).1
      = some RegistryError.unknownRequest := by
  have hne : ¬ id ∈ reg.pending.erase id :=
    not_mem_erase_self reg.pending id hnd
  have h1 := resolve_pending reg id d hp
  have hres : Registry.outcomesFor
      (⟨reg.pending.erase id, reg.outcomes ++ [(id, d)]⟩ : Registry) id
      = [d] := by
    rw [outcomesFor_settle]
    have hz : Registry.outcomesFor
        ⟨reg.pending.erase id, reg.outcomes⟩ id = [] := ho
    rw [hz]
    rfl
  have hcanres : Registry.outcomesFor
      (⟨reg.pending.erase id,
        reg.outcomes ++ [(id, cancelDecision)]⟩ : Registry) id
      = [cancelDecision] := by
    rw [outcomesFor_settle]
    have hz : Registry.outcomesFor
        ⟨reg.pending.erase id, reg.outcomes⟩ id = [] := ho
    rw [hz]
    rfl
  have hcan := cancel_pending reg id hp
  have hlate : Registry.resolve
      (⟨reg.pending.erase id,
        reg.outcomes ++ [(id, cancelDecision)]⟩ : Registry) id d
      = (some RegistryError.unknownRequest,
          ⟨reg.pending.erase id, reg.outcomes ++ [(id, cancelDecision)]⟩) :=
    resolve_not_pending _ id d hne
  refine ⟨?_, ?_, ?_, ?_, ?_⟩
  · rw [h1]
    show Registry.outcomesFor
      (Registry.cancel
        (⟨reg.pending.erase id, reg.outcomes ++ [(id, d)]⟩ : Registry)
        id) id = [d]
    rw [cancel_not_pending _ id hne]
    exact hres
  · unfold Registry.outcomeCount
    rw [h1]
    show (Registry.outcomesFor
      (Registry.cancel
        (⟨reg.pending.erase id, reg.outcomes ++ [(id, d)]⟩ : Registry)
        id) id).length = 1
    rw [cancel_not_pending _ id hne, hres]
    rfl
  · rw [hcan]
    show Registry.outcomesFor
      (Registry.resolve
        (⟨reg.pending.erase id,
          reg.outcomes ++ [(id, cancelDecision)]⟩ : Registry) id d).2 id
      = [cancelDecision]
    rw [hlate]
    exact hcanres
  · unfold Registry.outcomeCount
    rw [hcan]
    show (Registry.outcomesFor
      (Registry.resolve
        (⟨reg.pending.erase id,
          reg.outcomes ++ [(id, cancelDecision)]⟩ : Registry) id d).2
      id).length = 1
    rw [hlate, hcanres]
    rfl
  · rw [hcan]
    show (Registry.resolve
      (⟨reg.pending.erase id,
        reg.outcomes ++ [(id, cancelDecision)]⟩ : Registry) id d).1
      = some RegistryError.unknownRequest
    rw [hlate]

/-- Claim C5's witness: on the one-entry registry, resolve-then-cancel
settles allow once, cancel-then-resolve settles the cancellation decision
once and refuses the late resolve. -/
theorem registry_race_exactly_once_witness :
    Registry.outcomesFor
        (Registry.cancel (Registry.resolve regT1 "t1" allowDecision).2
          "t1") "t1" = [allowDecision] ∧
    Registry.outcomeCount
        (Registry.cancel (Registry.resolve regT1 "t1" allowDecision).2
          "t1") "t1" = 1 ∧
    Registry.outcomesFor
        (Registry.resolve (Registry.cancel regT1 "t1") "t1"
          allowDecision).2 "t1" = [cancelDecision] ∧
    Registry.outcomeCount
        (Registry.resolve (Registry.cancel regT1 "t1") "t1"
          allowDecision).2 "t1" = 1 ∧
    (Registry.resolve (Registry.cancel regT1 "t1") "t1" allowDecision).1
      = some RegistryError.unknownRequest :=
  registry_race_exactly_once regT1 "t1" allowDecision
    (by decide) (by decide) (by decide)

/-- Claim C8: matching is by value and FIFO per key.  In a store holding
two records of the same `(name, input)` key, with arbitrary non-matching
records around them, the first `resolve` returns the first-arrived
record's identifier consuming exactly that record, and the next `resolve`
returns the second record's identifier — first-seen-first-matched, each
record consumed at most once, equality of inputs structural. -/
theorem index_fifo_per_key (s1 s2 s3 : ToolInvocationIndex.Store)
    (r1 r2 : ToolInvocationRecord) (name input : String)
    (h1 : ∀ r ∈ s1, ¬(r.name = name ∧ r.input = input))
    (h2 : ∀ r ∈ s2, ¬(r.name = name ∧ r.input = input))
    (hm1 : r1.name = name ∧ r1.input = input)
    (hm2 : r2.name = name ∧ r2.input = input) :
    ToolInvocationIndex.resolve (s1 ++ (r1 :: (s2 ++ (r2 :: s3)))) name
        input
      = some (r1.id, s1 ++ (s2 ++ (r2 :: s3))) ∧
    ToolInvocationIndex.resolve (s1 ++ (s2 ++ (r2 :: s3))) name input
      = some (r2.id, s1 ++ (s2 ++ s3)) := by
  constructor
  · rw [resolve_append_skip s1 _ name input h1,
      resolve_cons_match r1 _ name input hm1]
  · rw [resolve_append_skip s1 _ name input h1,
      resolve_append_skip s2 _ name input h2,
      resolve_cons_match r2 _ name input hm2]

/-- Claim C8's witness: two Bash records with structurally equal inputs
behind an unrelated Read record resolve in arrival order, t1 then t2. -/
theorem index_fifo_per_key_witness :
    ToolInvocationIndex.resolve
        ([⟨"t0", "Read", "file=/f"⟩]
          ++ (⟨"t1", "Bash", "command=ls"⟩
            :: ([] ++ (⟨"t2", "Bash", "command=ls"⟩ :: [])))) "Bash"
        "command=ls"
      = some ("t1",
          [⟨"t0", "Read", "file=/f"⟩]
            ++ ([] ++ (⟨"t2", "Bash", "command=ls"⟩ :: []))) ∧
    ToolInvocationIndex.resolve
        ([⟨"t0", "Read", "file=/f"⟩]
          ++ ([] ++ (⟨"t2", "Bash", "command=ls"⟩ :: []))) "Bash"
        "command=ls"
      = some ("t2", [⟨"t0", "Read", "file=/f"⟩] ++ ([] ++ [])) :=
  index_fifo_per_key [⟨"t0", "Read", "file=/f"⟩] [] []
    ⟨"t1", "Bash", "command=ls"⟩ ⟨"t2", "Bash", "command=ls"⟩ "Bash"
    "command=ls" (by decide) (by decide) (by decide) (by decide)

/-- Claim C9's counterexample: a known tool whose supplied title is the
empty string.  JavaScript's truthiness test skips it, so the rendered
title is the raw tool name, not the supplied title — the claim's "that
title replaces the raw name" fails for the string title case. -/
theorem toolHeader_empty_title_counterexample :
    emptyTitleCatalog "Bash" = some emptyTitleTool ∧
    emptyTitleTool.title = some (TitleSpec.str "") ∧
    (ToolHeader emptyTitleCatalog "tint" ⟨"Bash", "command=ls"⟩).title
      = "Bash" ∧
    ((ToolHeader emptyTitleCatalog "tint" ⟨"Bash", "command=ls"⟩).title
        = "") = False :=
  ⟨rfl, rfl, rfl, eq_false (by decide)⟩

/-- Claim C9 as amended: an unknown tool renders the raw name, the default
construct-outline icon and no subtitle; a known tool's function title, or
non-empty string title, replaces the raw name; an empty string title — a
falsy value — leaves the raw name, as does an absent title. -/
theorem toolHeader_title_icon (kts : String → Option KnownTool)
    (tint : String) (tool : ToolCall) :
    (kts tool.name = none →
      ToolHeader kts tint tool
        = ⟨Icon.ionicon "construct-outline" 18 tint, tool.name, none⟩) ∧
    (∀ k f, kts tool.name = some k →
      k.title = some (TitleSpec.fn f) →
      (ToolHeader kts tint tool).title = f tool) ∧
    (∀ k s, kts tool.name = some k →
      k.title = some (TitleSpec.str s) → ¬ s = "" →
      (ToolHeader kts tint tool).title = s) ∧
    (∀ k, kts tool.name = some k → k.title = some (TitleSpec.str "") →
      (ToolHeader kts tint tool).title = tool.name) ∧
    (∀ k, kts tool.name = some k → k.title = none →
      (ToolHeader kts tint tool).title = tool.name) := by
  refine ⟨?_, ?_, ?_, ?_, ?_⟩
  · intro h
    unfold ToolHeader
    rw [h]
    rfl
  · intro k f hk ht
    unfold ToolHeader
    rw [hk]
    show computeTitle (some k) tool = f tool
    unfold computeTitle
    dsimp only
    rw [ht]
    rfl
  · intro k s hk ht hs
    unfold ToolHeader
    rw [hk]
    show computeTitle (some k) tool = s
    unfold computeTitle
    dsimp only
    rw [ht]
    simp [titleTruthy, hs]
  · intro k hk ht
    unfold ToolHeader
    rw [hk]
    show computeTitle (some k) tool = tool.name
    unfold computeTitle
    dsimp only
    rw [ht]
    rfl
  · intro k hk ht
    unfold ToolHeader
    rw [hk]
    show computeTitle (some k) tool = tool.name
    unfold computeTitle
    dsimp only
    rw [ht]
    rfl

/-- Claim C9's witness for the amended statement: a tool absent from the
catalog renders its raw name with the default icon, and a non-empty
string title replaces the raw name. -/
theorem toolHeader_title_icon_witness :
    ToolHeader emptyTitleCatalog "tint" ⟨"Read", "file=/f"⟩
      = ⟨Icon.ionicon "construct-outline" 18 "tint", "Read", none⟩ ∧
    (ToolHeader statusCatalogB "tint" ⟨"Bash", "command=ls"⟩).title
      = "Terminal" :=
  ⟨(toolHeader_title_icon emptyTitleCatalog "tint"
      ⟨"Read", "file=/f"⟩).1 rfl,
    ((toolHeader_title_icon statusCatalogB "tint"
        ⟨"Bash", "command=ls"⟩).2.2.1
      ⟨some (TitleSpec.str "Terminal"), none, none, none⟩ "Terminal" rfl
      rfl (by simp))⟩

/-- Claim C10: the element tree `ToolHeader` returns does not depend on
`extractStatus`.  Two catalogs whose entries agree once their
`extractStatus` fields are erased — title, icon and `extractSubtitle`
held fixed — render identically for every tool and theme tint. -/
theorem toolHeader_status_noninterference
    (kts1 kts2 : String → Option KnownTool) (tint : String)
    (tool : ToolCall)
    (h : ∀ n, Option.map KnownTool.eraseStatus (kts1 n)
        = Option.map KnownTool.eraseStatus (kts2 n)) :
    ToolHeader kts1 tint tool = ToolHeader kts2 tint tool := by
  have h' := h tool.name
  unfold ToolHeader
  cases hk1 : kts1 tool.name with
  | none =>
    cases hk2 : kts2 tool.name with
    | none => rfl
    | some k2 =>
      rw [hk1, hk2] at h'
      cases h'
  | some k1 =>
    cases hk2 : kts2 tool.name with
    | none =>
      rw [hk1, hk2] at h'
      cases h'
    | some k2 =>
      rw [hk1, hk2] at h'
      simp only [Option.map] at h'
      obtain ⟨t1, i1, st1, su1⟩ := k1
      obtain ⟨t2, i2, st2, su2⟩ := k2
      unfold KnownTool.eraseStatus at h'
      injection h' with h''
      injection h'' with e1 e2 e3 e4
      subst e1
      subst e2
      subst e4
      rfl

/-- Claim C10's witness: the same catalog entry with and without a status
extractor renders the same header. -/
theorem toolHeader_status_noninterference_witness :
    ToolHeader statusCatalogA "tint" ⟨"Bash", "command=ls"⟩
      = ToolHeader statusCatalogB "tint" ⟨"Bash", "command=ls"⟩ :=
  toolHeader_status_noninterference statusCatalogA statusCatalogB "tint"
    ⟨"Bash", "command=ls"⟩ (fun _ => rfl)
